import Mathlib

/-!
stringsvc: a string service behind decorators, endpoints and endpoint middleware.

A shallow embedding of `cmd/stringsvc1/main.go` and of `cmd/stringsvc2`
(`service.go`, `transport.go`, `main.go`).

Conventions of the embedding.

* A Go `string` is a Lean `String` (valid UTF-8 text, which is what the JSON
  decoder hands to the endpoints); Go's builtin `len` on it is the number of
  bytes of its UTF-8 encoding.
* `stringService`, the request and response types and the two endpoint
  constructors are the same code in `stringsvc1` and `stringsvc2`; they are
  embedded once.
* A Go `error` is `Option GoError`: `none` is `nil`, `some e` carries the text
  that `e.Error()` returns.
* A Go `interface{}` is the sum type `Any` of the dynamic types this program
  puts into one.
* Code with effects (clock, logger, metrics) is a function
  `World → Outcome α × World`; `Outcome.panic` is a Go panic unwinding the
  stack, and a `defer` runs on both kinds of exit.
-/

namespace Stringsvc

/-! ## Values -/

/-- A non-nil Go error value; `msg` is what its `Error()` method returns. -/
structure GoError where
  msg : String
deriving DecidableEq, Repr

/-- The method `Error()` of a Go error. -/
def GoError.Error (e : GoError) : String := e.msg

/-- The Go type `error`; `none` is `nil`. -/
abbrev error := Option GoError

/-- The call `errors.New(text)`. -/
def errors.New (text : String) : GoError := ⟨text⟩

/-- The package variable `ErrEmpty = errors.New("empty string")`. -/
def ErrEmpty : GoError := errors.New "empty string"

/-- The type `uppercaseRequest` of transport.go. -/
structure uppercaseRequest where
  S : String
deriving DecidableEq, Repr

/-- The type `uppercaseResponse` of transport.go
(`V` is tagged `json:"v"`, `Err` is tagged `json:"err,omitempty"`). -/
structure uppercaseResponse where
  V : String
  Err : String := ""
deriving DecidableEq, Repr

/-- The type `countRequest` of transport.go. -/
structure countRequest where
  S : String
deriving DecidableEq, Repr

/-- The type `countResponse` of transport.go (`V` is tagged `json:"v"`). -/
structure countResponse where
  V : Int
deriving DecidableEq, Repr

/-- A Go `interface{}` value, by dynamic type. -/
inductive Any where
  | nil
  | string (s : String)
  | int (n : Int)
  | error (e : GoError)
  | Duration (d : Int)
  | uppercaseRequest (r : Stringsvc.uppercaseRequest)
  | uppercaseResponse (r : Stringsvc.uppercaseResponse)
  | countRequest (r : Stringsvc.countRequest)
  | countResponse (r : Stringsvc.countResponse)
deriving DecidableEq, Repr

/-- Conversion of an `error` to `interface{}`: a nil error is the nil interface. -/
def Any.ofError : Stringsvc.error → Any
  | none => Any.nil
  | some e => Any.error e

/-- The name of the dynamic type, as a failed type assertion prints it. -/
def Any.typeName : Any → String
  | .nil => "nil"
  | .string _ => "string"
  | .int _ => "int"
  | .error _ => "*errors.errorString"
  | .Duration _ => "time.Duration"
  | .uppercaseRequest _ => "main.uppercaseRequest"
  | .uppercaseResponse _ => "main.uppercaseResponse"
  | .countRequest _ => "main.countRequest"
  | .countResponse _ => "main.countResponse"

/-- A `float64` handed to a histogram, kept symbolic: either
`d.Seconds()` of a duration `d` in nanoseconds, or `float64(n)` of an int. -/
inductive Sample where
  | Seconds (d : Int)
  | float64 (n : Int)
deriving DecidableEq, Repr

/-! ## The world: clock, log output, metrics -/

/-- Everything outside the program that its effects read or write. -/
structure World where
  /-- The wall clock: `clock k` is the reading (in nanoseconds) that the
  `k`-th call of `time.Now` gets. -/
  clock : Nat → Int
  /-- How many times the clock has been read. -/
  reads : Nat
  /-- The records written so far by the logfmt logger, oldest first; a record
  is the flat key/value list given to `Log`. -/
  records : List (List Any)
  /-- The counters of the metrics sink: metric name, then label values. -/
  counters : String → List String → Nat
  /-- The histograms of the metrics sink: each entry is the list of the
  observations made so far, oldest first. -/
  histograms : String → List String → List Sample

/-- How a Go call ends: it returns, or it panics. -/
inductive Outcome (α : Type) where
  | ret (a : α)
  | panic (v : String)
deriving DecidableEq, Repr

/-- A Go computation with effects on the world. -/
def Go (α : Type) : Type := World → Outcome α × World

/-- Returning a value without touching the world. -/
def Go.pure {α : Type} (a : α) : Go α := fun w => (Outcome.ret a, w)

/-- Sequencing: a panic in the first part skips the rest. -/
def Go.bind {α β : Type} (m : Go α) (f : α → Go β) : Go β := fun w =>
  match m w with
  | (Outcome.ret a, w1) => f a w1
  | (Outcome.panic v, w1) => (Outcome.panic v, w1)

instance : Monad Go where
  pure := Go.pure
  bind := Go.bind

/-- A function body with one `defer`. `named` is what the named results hold
if the body panics before assigning them (their zero values); when the body
returns, they hold the returned values. The deferred call runs on both kinds
of exit and cannot change the results; a panic of the body goes on after it. -/
def Go.defer {α : Type} (named : α) (deferred : α → Go Unit) (body : Go α) : Go α := fun w =>
  match body w with
  | (Outcome.ret a, w1) =>
    match deferred a w1 with
    | (Outcome.ret _, w2) => (Outcome.ret a, w2)
    | (Outcome.panic v, w2) => (Outcome.panic v, w2)
  | (Outcome.panic v, w1) =>
    match deferred named w1 with
    | (Outcome.ret _, w2) => (Outcome.panic v, w2)
    | (Outcome.panic v2, w2) => (Outcome.panic v2, w2)

/-- The call `time.Now()`: the next reading of the clock. -/
def time.Now : Go Int := fun w =>
  (Outcome.ret (w.clock w.reads), { w with reads := w.reads + 1 })

/-- The call `time.Since(t)`, which is `time.Now().Sub(t)`. -/
def time.Since (t : Int) : Go Int := do
  let now ← time.Now
  return now - t

/-! ## Logger (go-kit `log.Logger`) -/

/-- The interface `log.Logger`: `Log(keyvals ...interface{}) error`. -/
structure Logger where
  Log : List Any → World → Stringsvc.error × World

/-- Calling `logger.Log(keyvals...)` as a statement: the returned error is dropped. -/
def Logger.call (logger : Logger) (keyvals : List Any) : Go Unit := fun w =>
  (Outcome.ret (), (logger.Log keyvals w).2)

/-- The logger `log.NewLogfmtLogger(os.Stderr)`: one record per call, appended
to the output. -/
def NewLogfmtLogger : Logger where
  Log := fun keyvals w => (none, { w with records := w.records ++ [keyvals] })

/-- The logger `log.With(logger, keyvals...)`: the given key/values come first in
every record. -/
def log.With (logger : Logger) (keyvals : List Any) : Logger where
  Log := fun kvs w => logger.Log (keyvals ++ kvs) w

/-! ## Metrics (go-kit `metrics.Counter`, `metrics.Histogram`) -/

/-- A `metrics.Counter` of the sink: the metric's name and the label values
bound so far. -/
structure Counter where
  name : String
  lvs : List String
deriving DecidableEq, Repr

/-- A `metrics.Histogram` of the sink: the metric's name and the label values
bound so far. -/
structure Histogram where
  name : String
  lvs : List String
deriving DecidableEq, Repr

/-- The method `With(labelValues...)` of a counter. -/
def Counter.With (c : Counter) (labelValues : List String) : Counter :=
  { c with lvs := c.lvs ++ labelValues }

/-- The method `Add(delta)` of a counter. In Go `delta` is a `float64`; the
program only ever adds 1, and the value of a counter is kept as a natural
number. -/
def Counter.Add (c : Counter) (delta : Nat) : Go Unit := fun w =>
  (Outcome.ret (), { w with counters := fun n l =>
    if n = c.name ∧ l = c.lvs then w.counters n l + delta else w.counters n l })

/-- The method `With(labelValues...)` of a histogram. -/
def Histogram.With (h : Histogram) (labelValues : List String) : Histogram :=
  { h with lvs := h.lvs ++ labelValues }

/-- The method `Observe(value)` of a histogram. -/
def Histogram.Observe (h : Histogram) (value : Sample) : Go Unit := fun w =>
  (Outcome.ret (), { w with histograms := fun n l =>
    if n = h.name ∧ l = h.lvs then w.histograms n l ++ [value] else w.histograms n l })

/-! ## service.go -/

/-- Go's builtin `len` on a string: the number of bytes. -/
def len (s : String) : Int := s.utf8ByteSize

/-- The ASCII branch of `strings.ToUpper`, on one character. -/
def asciiUpper (c : Char) : Char :=
  if 'a' ≤ c ∧ c ≤ 'z' then Char.ofNat (c.toNat - 32) else c

/-- The standard library's `strings.ToUpper`. A string of ASCII characters
only is returned as it is when it has no lower-case letter, and with each of
`a`..`z` replaced by its capital otherwise; any other string is mapped
character by character through `unicode.ToUpper`, the case table of the
standard library, which is the parameter `unicodeToUpper`. -/
def strings.ToUpper (unicodeToUpper : Char → Char) (s : String) : String :=
  if s.data.all (fun c => c.toNat < 128) then
    if s.data.any (fun c => 'a' ≤ c ∧ c ≤ 'z') then String.mk (s.data.map asciiUpper) else s
  else String.mk (s.data.map unicodeToUpper)

/-- The interface `StringService`. -/
structure StringService where
  Uppercase : String → Go (String × Stringsvc.error)
  Count : String → Go Int

/-- The type `stringService`, an empty struct. -/
structure stringService where
deriving DecidableEq, Repr

/-- The method `stringService.Uppercase`, as a function of its argument alone;
`unicodeToUpper` is the case table its call of `strings.ToUpper` uses. -/
def stringService.uppercase (unicodeToUpper : Char → Char) (_x : stringService) (s : String) :
    String × Stringsvc.error :=
  if s = "" then
    ("", some ErrEmpty)
  else
    (strings.ToUpper unicodeToUpper s, none)

/-- The method `stringService.Uppercase`. -/
def stringService.Uppercase (unicodeToUpper : Char → Char) (x : stringService) (s : String) :
    Go (String × Stringsvc.error) :=
  pure (x.uppercase unicodeToUpper s)

/-- The method `stringService.Count`. -/
def stringService.Count (_x : stringService) (s : String) : Go Int :=
  pure (len s)

/-- A `stringService` used as a `StringService`. -/
def stringService.toStringService (unicodeToUpper : Char → Char) (x : stringService) :
    StringService where
  Uppercase := x.Uppercase unicodeToUpper
  Count := x.Count

/-- The type `serviceLoggingMiddleware`. -/
structure serviceLoggingMiddleware where
  logger : Logger
  next : StringService

/-- The method `serviceLoggingMiddleware.Uppercase`. -/
def serviceLoggingMiddleware.Uppercase (m : serviceLoggingMiddleware) (s : String) :
    Go (String × Stringsvc.error) := do
  let begin ← time.Now
  let (output, err) ← m.next.Uppercase s
  let took ← time.Since begin
  m.logger.call [
    Any.string "method", Any.string "uppercase",
    Any.string "input", Any.string s,
    Any.string "output", Any.string output,
    Any.string "err", Any.ofError err,
    Any.string "took", Any.Duration took]
  return (output, err)

/-- The method `serviceLoggingMiddleware.Count`. -/
def serviceLoggingMiddleware.Count (m : serviceLoggingMiddleware) (s : String) : Go Int := do
  let begin ← time.Now
  let output ← m.next.Count s
  let took ← time.Since begin
  m.logger.call [
    Any.string "method", Any.string "count",
    Any.string "input", Any.string s,
    Any.string "output", Any.int output,
    Any.string "took", Any.Duration took]
  return output

/-- A `serviceLoggingMiddleware` used as a `StringService`. -/
def serviceLoggingMiddleware.toStringService (m : serviceLoggingMiddleware) : StringService where
  Uppercase := m.Uppercase
  Count := m.Count

/-- The type `instrumentingMiddleware`. -/
structure instrumentingMiddleware where
  requestCount : Counter
  requestLatency : Histogram
  countResult : Histogram
  next : StringService

/-- The call `fmt.Sprint(b)` of a bool. -/
def fmt.Sprint (b : Bool) : String := if b then "true" else "false"

/-- The method `instrumentingMiddleware.Uppercase`: the deferred function reads
the named result `err` when the method exits. -/
def instrumentingMiddleware.Uppercase (mw : instrumentingMiddleware) (s : String) :
    Go (String × Stringsvc.error) := do
  let begin ← time.Now
  Go.defer ("", none)
    (fun named => do
      let lvs := ["method", "uppercase", "error", fmt.Sprint (named.2 != none)]
      (mw.requestCount.With lvs).Add 1
      let h := mw.requestLatency.With lvs
      let since ← time.Since begin
      h.Observe (Sample.Seconds since))
    (mw.next.Uppercase s)

/-- The method `instrumentingMiddleware.Count`: the deferred function reads the
named result `n` when the method exits. -/
def instrumentingMiddleware.Count (mw : instrumentingMiddleware) (s : String) : Go Int := do
  let begin ← time.Now
  Go.defer 0
    (fun n => do
      let lvs := ["method", "count", "error", "false"]
      (mw.requestCount.With lvs).Add 1
      let h := mw.requestLatency.With lvs
      let since ← time.Since begin
      h.Observe (Sample.Seconds since)
      mw.countResult.Observe (Sample.float64 n))
    (mw.next.Count s)

/-- An `instrumentingMiddleware` used as a `StringService`. -/
def instrumentingMiddleware.toStringService (mw : instrumentingMiddleware) : StringService where
  Uppercase := mw.Uppercase
  Count := mw.Count

/-! ## transport.go -/

/-- The type `context.Context`; `id` tells one context value from another. -/
structure Context where
  id : Nat
deriving DecidableEq, Repr

/-- The type `endpoint.Endpoint` of go-kit:
`func(ctx context.Context, request interface{}) (response interface{}, err error)`. -/
abbrev Endpoint := Context → Any → Go (Any × Stringsvc.error)

/-- The type `endpoint.Middleware` of go-kit: `func(Endpoint) Endpoint`. -/
abbrev Middleware := Endpoint → Endpoint

/-- The panic of a failed type assertion `request.(T)`. -/
def assertionPanic {α : Type} (request : Any) (T : String) : Go α := fun w =>
  (Outcome.panic ("interface conversion: interface \x7b\x7d is " ++ request.typeName ++ ", not " ++ T), w)

/-- The function `makeUppercaseEndpoint`. -/
def makeUppercaseEndpoint (service : StringService) : Endpoint := fun _ctx request =>
  match request with
  | Any.uppercaseRequest req => do
    let (v, err) ← service.Uppercase req.S
    match err with
    | some e => return (Any.uppercaseResponse { V := v, Err := e.Error }, none)
    | none => return (Any.uppercaseResponse { V := v }, none)
  | other => assertionPanic other "main.uppercaseRequest"

/-- The function `makeCountEndpoint`. -/
def makeCountEndpoint (service : StringService) : Endpoint := fun _ctx request =>
  match request with
  | Any.countRequest req => do
    let v ← service.Count req.S
    return (Any.countResponse { V := v }, none)
  | other => assertionPanic other "main.countRequest"

/-- A JSON value, as far as the responses need it. -/
inductive JSON where
  | str (s : String)
  | num (n : Int)
  | obj (members : List (String × JSON))
deriving Repr

/-- What `encoding/json` writes for an `uppercaseResponse`: the member `v`
always, the member `err` unless it is the empty string (`omitempty`). -/
def uppercaseResponse.members (r : uppercaseResponse) : List (String × JSON) :=
  [("v", JSON.str r.V)] ++ (if r.Err = "" then [] else [("err", JSON.str r.Err)])

/-- What `encoding/json` writes for a `countResponse`: the member `v`. -/
def countResponse.members (r : countResponse) : List (String × JSON) :=
  [("v", JSON.num r.V)]

/-- The member names of the JSON object written for an `uppercaseResponse`. -/
def uppercaseResponse.keys (r : uppercaseResponse) : List String :=
  r.members.map Prod.fst

/-! ## main.go -/

/-- The function `loggingMiddleware`: the deferred `Log` call runs when the
endpoint exits, whether `next` returned or panicked. -/
def loggingMiddleware (logger : Logger) : Middleware := fun next => fun ctx request => do
  logger.call [Any.string "msg", Any.string "calling endpoint"]
  Go.defer (Any.nil, none)
    (fun _ => logger.call [Any.string "msg", Any.string "called endpoint"])
    (next ctx request)

/-- The counter `requestCount` of `main` (field keys `method`, `error`). -/
def main.requestCount : Counter := ⟨"my_group_string_service_request_count", []⟩

/-- The summary `requestLatency` of `main` (field keys `method`, `error`). -/
def main.requestLatency : Histogram :=
  ⟨"my_group_string_service_request_latency_microseconds", []⟩

/-- The summary `countResult` of `main` (no field keys). -/
def main.countResult : Histogram := ⟨"my_group_string_service_count_result", []⟩

/-- The variable `logger` of `main`. -/
def main.logger : Logger := NewLogfmtLogger

/-- The variable `svc` of `main` after its three assignments. -/
def main.svc (unicodeToUpper : Char → Char) : StringService :=
  let svc : StringService := stringService.toStringService unicodeToUpper {}
  let svc : StringService :=
    serviceLoggingMiddleware.toStringService { logger := main.logger, next := svc }
  instrumentingMiddleware.toStringService
    ⟨main.requestCount, main.requestLatency, main.countResult, svc⟩

/-- The variable `uppercase` of `main` after its two assignments. -/
def main.uppercase (unicodeToUpper : Char → Char) : Endpoint :=
  let uppercase : Endpoint := makeUppercaseEndpoint (main.svc unicodeToUpper)
  loggingMiddleware (log.With main.logger [Any.string "method", Any.string "uppercase"]) uppercase

/-- The variable `count` of `main` after its two assignments. -/
def main.count (unicodeToUpper : Char → Char) : Endpoint :=
  let count : Endpoint := makeCountEndpoint (main.svc unicodeToUpper)
  loggingMiddleware (log.With main.logger [Any.string "method", Any.string "count"]) count

/-- A `StringService` whose `Uppercase` always fails with `errors.New("")`, an
error whose message is the empty string. -/
def mutedService : StringService where
  Uppercase := fun _ => pure ("", some (errors.New ""))
  Count := fun _ => pure 0

/-- Whether a call of `Uppercase` came back with a failure. -/
def reportedFailure : Outcome (String × Stringsvc.error) → Bool
  | Outcome.ret (_, some _) => true
  | _ => false

/-- An endpoint that writes down the context and the request of each call it
receives, and returns the given response and error. -/
def recordingEndpoint (response : Any) (err : Stringsvc.error) : Endpoint := fun ctx request w =>
  (Outcome.ret (response, err),
    { w with records := w.records ++
      [[Any.string "ctx", Any.int ctx.id, Any.string "request", request]] })

/-- The `instrumentingMiddleware` of `main`, around the base service alone. -/
def main.instrumented (unicodeToUpper : Char → Char) : instrumentingMiddleware :=
  ⟨main.requestCount, main.requestLatency, main.countResult,
    stringService.toStringService unicodeToUpper {}⟩

/-- A world in which nothing has happened yet; the clock reads 1000 ns more
at each reading. -/
def World.start : World where
  clock := fun k => 1000 * k
  reads := 0
  records := []
  counters := fun _ _ => 0
  histograms := fun _ _ => []


/-! ## Lemmas on strings -/

/-- An ASCII character is encoded in one byte. -/
theorem utf8Size_of_ascii (c : Char) (h : c.toNat < 128) : c.utf8Size = 1 := by
  have h1 : c.val ≤ UInt32.ofNatCore 0x7F (by decide) := by
    rw [UInt32.le_def, BitVec.le_def]
    have : c.val.toBitVec.toNat < 128 := h
    have h2 : (UInt32.ofNatCore 0x7F (by decide)).toBitVec.toNat = 127 := rfl
    omega
  unfold Char.utf8Size
  simp only [h1, if_true]

/-- A string has at least as many bytes as characters. -/
theorem length_le_utf8Len (l : List Char) : l.length ≤ String.utf8Len l := by
  induction l with
  | nil => simp
  | cons c cs ih =>
    have := Char.utf8Size_pos c
    simp only [List.length_cons, String.utf8Len_cons]
    omega

/-- A string of ASCII characters has as many bytes as characters. -/
theorem utf8Len_of_ascii (l : List Char) (h : ∀ c ∈ l, c.toNat < 128) :
    String.utf8Len l = l.length := by
  induction l with
  | nil => simp
  | cons c cs ih =>
    have h1 := utf8Size_of_ascii c (h c (List.mem_cons_self c cs))
    have h2 := ih (fun d hd => h d (List.mem_cons_of_mem c hd))
    simp only [List.length_cons, String.utf8Len_cons, h1, h2]

/-! ## The base service -/

/-- C1. The base `stringService`: `Uppercase("")` fails with `ErrEmpty`, whose
message is "empty string", and its value is the empty string; on a non-empty
`s` it returns `strings.ToUpper(s)` and no failure. It leaves the world as it
is. -/
theorem uppercase_base (unicodeToUpper : Char → Char) (x : stringService) (s : String)
    (w : World) (hs : s ≠ "") :
    x.Uppercase unicodeToUpper "" w = (Outcome.ret ("", some ErrEmpty), w) ∧
    ErrEmpty.Error = "empty string" ∧
    x.Uppercase unicodeToUpper s w = (Outcome.ret (strings.ToUpper unicodeToUpper s, none), w) := by
  refine ⟨rfl, rfl, ?_⟩
  show (Outcome.ret (x.uppercase unicodeToUpper s), w) = _
  simp [stringService.uppercase, hs]

/-- C1, at the input "hello". -/
theorem uppercase_base_witness :
    ("hello" : String) ≠ "" ∧
    stringService.Uppercase id {} "hello" World.start = (Outcome.ret ("HELLO", none), World.start) :=
  ⟨by decide, (uppercase_base id {} "hello" World.start (by decide)).2.2⟩

/-- C2 as stated fails: on the one-character string "é" the base `Count`
returns 2, not the number of characters 1. -/
theorem count_base_not_characters :
    ("é" : String).length = 1 ∧
    (stringService.Count {} "é" World.start).1 = Outcome.ret 2 ∧
    (stringService.Count {} "é" World.start).1 ≠ Outcome.ret (("é" : String).length : Int) := by
  refine ⟨by decide, rfl, ?_⟩
  decide

/-- C2, amended. The base `Count(s)` returns the number of bytes of the UTF-8
encoding of `s`; that is at least the number of characters of `s`, it is the
number of characters when every character of `s` is ASCII, and it is 0 for the
empty string. It leaves the world as it is. -/
theorem count_base_bytes (x : stringService) (s : String) (w : World) :
    x.Count s w = (Outcome.ret (s.toUTF8.size : Int), w) ∧
    (s.length : Int) ≤ s.toUTF8.size ∧
    ((∀ c ∈ s.data, c.toNat < 128) → x.Count s w = (Outcome.ret (s.length : Int), w)) ∧
    x.Count "" w = (Outcome.ret 0, w) := by
  have hsize : s.toUTF8.size = String.utf8Len s.data := by
    rw [String.size_toUTF8]; rfl
  refine ⟨?_, ?_, ?_, rfl⟩
  · show (Outcome.ret (len s), w) = _
    rw [String.size_toUTF8]; rfl
  · rw [hsize]
    exact_mod_cast length_le_utf8Len s.data
  · intro h
    show (Outcome.ret (len s), w) = _
    have : len s = (s.length : Int) := by
      show ((s.utf8ByteSize : Nat) : Int) = _
      have h2 : s.utf8ByteSize = String.utf8Len s.data := rfl
      rw [h2, utf8Len_of_ascii s.data h]; rfl
    rw [this]

/-- C2 amended, at the ASCII input "hello". -/
theorem count_base_bytes_witness :
    (∀ c ∈ ("hello" : String).data, c.toNat < 128) ∧
    stringService.Count {} "hello" World.start = (Outcome.ret 5, World.start) :=
  ⟨by decide, (count_base_bytes {} "hello" World.start).2.2.1 (by decide)⟩

/-! ## The logging decorator returns what the wrapped service returns -/

/-- C3. For every logger, every wrapped service `next` and every `s`, the
outcome of `serviceLoggingMiddleware.Uppercase(s)` is the outcome of the call
`next.Uppercase(s)` it makes (made after the clock has been read once): the same
value and failure, and the same panic if `next` panics. Likewise for `Count`. -/
theorem logging_decorator_transparent (logger : Logger) (next : StringService) (s : String)
    (w : World) :
    (serviceLoggingMiddleware.Uppercase ⟨logger, next⟩ s w).1
      = (next.Uppercase s (time.Now w).2).1 ∧
    (serviceLoggingMiddleware.Count ⟨logger, next⟩ s w).1
      = (next.Count s (time.Now w).2).1 := by
  constructor
  · show (Go.bind time.Now _ w).1 = _
    simp only [Go.bind, time.Now]
    show (Go.bind (next.Uppercase s) _ _).1 = _
    simp only [Go.bind]
    rcases h : next.Uppercase s _ with ⟨r, w2⟩
    cases r <;> rfl
  · show (Go.bind time.Now _ w).1 = _
    simp only [Go.bind, time.Now]
    show (Go.bind (next.Count s) _ _).1 = _
    simp only [Go.bind]
    rcases h : next.Count s _ with ⟨r, w2⟩
    cases r <;> rfl

/-! ## Endpoints -/

/-- C4. For every service and every `uppercaseRequest{S: s}`: when the
service's `Uppercase(s)` fails with `e` and value `v`, the endpoint returns the
response `{V: v, Err: e.Error()}` and a nil error; when it succeeds with `v`,
the response `{V: v, Err: ""}` and a nil error; the world is the one the
service left. With the base service, "hello" gives `{V: "HELLO"}` and ""
gives `{V: "", Err: "empty string"}`. -/
theorem uppercase_endpoint (service : StringService) (unicodeToUpper : Char → Char)
    (ctx : Context) (s : String) (w : World) :
    makeUppercaseEndpoint service ctx (Any.uppercaseRequest ⟨s⟩) w
      = (match service.Uppercase s w with
        | (Outcome.ret (v, some e), w1) =>
          (Outcome.ret (Any.uppercaseResponse { V := v, Err := e.Error }, none), w1)
        | (Outcome.ret (v, none), w1) =>
          (Outcome.ret (Any.uppercaseResponse { V := v, Err := "" }, none), w1)
        | (Outcome.panic p, w1) => (Outcome.panic p, w1)) ∧
    makeUppercaseEndpoint (stringService.toStringService unicodeToUpper {}) ctx
        (Any.uppercaseRequest ⟨"hello"⟩) w
      = (Outcome.ret (Any.uppercaseResponse { V := "HELLO" }, none), w) ∧
    makeUppercaseEndpoint (stringService.toStringService unicodeToUpper {}) ctx
        (Any.uppercaseRequest ⟨""⟩) w
      = (Outcome.ret (Any.uppercaseResponse { V := "", Err := "empty string" }, none), w) := by
  refine ⟨?_, rfl, rfl⟩
  show Go.bind (service.Uppercase s) _ w = _
  simp only [Go.bind]
  rcases h : service.Uppercase s w with ⟨r, w1⟩
  rcases r with ⟨v, e⟩ | p
  · cases e <;> rfl
  · rfl

/-- C10. For every service and every `countRequest{S: s}`, the endpoint
returns the response `{V: service.Count(s)}` and a nil error, in the world the
service left; with the base service, "hello" gives `{V: 5}`. -/
theorem count_endpoint (service : StringService) (unicodeToUpper : Char → Char)
    (ctx : Context) (s : String) (w : World) :
    makeCountEndpoint service ctx (Any.countRequest ⟨s⟩) w
      = (match service.Count s w with
        | (Outcome.ret v, w1) => (Outcome.ret (Any.countResponse { V := v }, none), w1)
        | (Outcome.panic p, w1) => (Outcome.panic p, w1)) ∧
    makeCountEndpoint (stringService.toStringService unicodeToUpper {}) ctx
        (Any.countRequest ⟨"hello"⟩) w
      = (Outcome.ret (Any.countResponse { V := 5 }, none), w) := by
  refine ⟨?_, rfl⟩
  show Go.bind (service.Count s) _ w = _
  simp only [Go.bind]
  rcases h : service.Count s w with ⟨r, w1⟩
  cases r <;> rfl

/-- C5 as stated fails: `mutedService` reports a failure, and the response the
endpoint builds for it is written without the member `err`. -/
theorem err_member_absent_on_failure :
    (mutedService.Uppercase "x" World.start).1 = Outcome.ret ("", some (errors.New "")) ∧
    (makeUppercaseEndpoint mutedService ⟨0⟩ (Any.uppercaseRequest ⟨"x"⟩) World.start).1
      = Outcome.ret (Any.uppercaseResponse { V := "", Err := "" }, none) ∧
    "err" ∉ uppercaseResponse.keys { V := "", Err := "" } := by
  refine ⟨rfl, rfl, ?_⟩
  decide

/-- C5, amended. For every service and every request `uppercaseRequest{S: s}`
on which the service's `Uppercase` returns `(v, err)`, the endpoint returns a
response and a nil error, and the member `err` is written for that response
exactly when `err` is a failure whose message is not the empty string: it is
left out on every success, and written on every failure with a non-empty
message. With the base service, whose one failure has the message
"empty string", the member `err` is written exactly when `Uppercase` failed. -/
theorem err_member_iff (service : StringService) (unicodeToUpper : Char → Char)
    (ctx : Context) (s : String) (w : World) :
    (match service.Uppercase s w with
    | (Outcome.ret (_, err), _) =>
      ∃ r, (makeUppercaseEndpoint service ctx (Any.uppercaseRequest ⟨s⟩) w).1
            = Outcome.ret (Any.uppercaseResponse r, none) ∧
        ("err" ∈ r.keys ↔ ∃ e, err = some e ∧ e.Error ≠ "")
    | (Outcome.panic p, _) =>
      (makeUppercaseEndpoint service ctx (Any.uppercaseRequest ⟨s⟩) w).1 = Outcome.panic p) ∧
    (∃ r, (makeUppercaseEndpoint (stringService.toStringService unicodeToUpper {}) ctx
              (Any.uppercaseRequest ⟨s⟩) w).1
            = Outcome.ret (Any.uppercaseResponse r, none) ∧
        ("err" ∈ r.keys ↔ reportedFailure (stringService.Uppercase unicodeToUpper {} s w).1)) := by
  constructor
  · have hdef : makeUppercaseEndpoint service ctx (Any.uppercaseRequest ⟨s⟩) w
        = Go.bind (service.Uppercase s) _ w := rfl
    rw [hdef]
    simp only [Go.bind]
    rcases h : service.Uppercase s w with ⟨r, w1⟩
    rcases r with ⟨v, e⟩ | p
    · cases e with
      | none =>
        refine ⟨{ V := v }, rfl, ?_⟩
        simp [uppercaseResponse.keys, uppercaseResponse.members]
      | some e =>
        refine ⟨{ V := v, Err := e.Error }, rfl, ?_⟩
        by_cases he : e.Error = "" <;>
          simp [uppercaseResponse.keys, uppercaseResponse.members, he]
    · rfl
  · by_cases hs : s = ""
    · subst hs
      refine ⟨{ V := "", Err := "empty string" }, rfl, ?_⟩
      have h1 : "err" ∈ uppercaseResponse.keys { V := "", Err := "empty string" } := by decide
      have h2 : reportedFailure (stringService.Uppercase unicodeToUpper {} "" w).1 = true := rfl
      exact ⟨fun _ => h2, fun _ => h1⟩
    · refine ⟨{ V := strings.ToUpper unicodeToUpper s }, ?_, ?_⟩
      · simp [makeUppercaseEndpoint, bind, Go.bind, stringService.toStringService,
          stringService.Uppercase, stringService.uppercase, pure, Go.pure, hs]
      · simp [uppercaseResponse.keys, uppercaseResponse.members, stringService.Uppercase,
          stringService.uppercase, pure, Go.pure, hs, reportedFailure]

/-! ## What the decorators add to the sinks -/

/-- C6. With the counters and histograms of the sink as state, and `r` the
outcome and world of the wrapped call: one call of
`instrumentingMiddleware.Uppercase(s)` adds 1 to the request counter and appends
one observation, the seconds elapsed since the call began, to the
request-latency histogram, both at the labels `method = uppercase`,
`error = true` if the wrapped call returned a failure and `false` otherwise,
and changes no other counter or histogram entry. One call of `Count(s)` does
so at the labels `method = count`, `error = false`, and changes no other
counter entry and no other request-latency entry (`countResult` being another
metric than `requestLatency`). -/
theorem instrumenting_effect (mw : instrumentingMiddleware) (s : String) (w : World)
    (hmetrics : mw.countResult.name ≠ mw.requestLatency.name) :
    (let r := mw.next.Uppercase s (time.Now w).2
     let lvs := ["method", "uppercase", "error", if reportedFailure r.1 then "true" else "false"]
     let w' := (mw.Uppercase s w).2
     (∀ n l, w'.counters n l
        = if n = mw.requestCount.name ∧ l = mw.requestCount.lvs ++ lvs
          then r.2.counters n l + 1 else r.2.counters n l) ∧
     (∀ n l, w'.histograms n l
        = if n = mw.requestLatency.name ∧ l = mw.requestLatency.lvs ++ lvs
          then r.2.histograms n l ++ [Sample.Seconds (r.2.clock r.2.reads - w.clock w.reads)]
          else r.2.histograms n l)) ∧
    (let r := mw.next.Count s (time.Now w).2
     let lvs := ["method", "count", "error", "false"]
     let w' := (mw.Count s w).2
     (∀ n l, w'.counters n l
        = if n = mw.requestCount.name ∧ l = mw.requestCount.lvs ++ lvs
          then r.2.counters n l + 1 else r.2.counters n l) ∧
     (∀ l, w'.histograms mw.requestLatency.name l
        = if l = mw.requestLatency.lvs ++ lvs
          then r.2.histograms mw.requestLatency.name l
            ++ [Sample.Seconds (r.2.clock r.2.reads - w.clock w.reads)]
          else r.2.histograms mw.requestLatency.name l)) := by
  constructor
  · rcases h : mw.next.Uppercase s (time.Now w).2 with ⟨o, w2⟩
    simp only [time.Now] at h
    simp only [instrumentingMiddleware.Uppercase, bind, Go.bind, Go.defer, time.Now,
      time.Since, Counter.Add, Histogram.Observe, Counter.With, Histogram.With, pure, Go.pure, h]
    rcases o with ⟨v, e⟩ | p
    · cases e <;> simp [reportedFailure, fmt.Sprint]
    · simp [reportedFailure, fmt.Sprint]
  · rcases h : mw.next.Count s (time.Now w).2 with ⟨o, w2⟩
    simp only [time.Now] at h
    simp only [instrumentingMiddleware.Count, bind, Go.bind, Go.defer, time.Now,
      time.Since, Counter.Add, Histogram.Observe, Counter.With, Histogram.With, pure, Go.pure, h]
    rcases o with v | p
    · simp [hmetrics.symm]
    · simp [hmetrics.symm]

/-- C6, at the metrics of `main` around the base service, from the start
world: a failing `Uppercase("")` leaves 1 in the counter at `error = true`, and
`Count("hello")` leaves one observation in the latency histogram. -/
theorem instrumenting_effect_witness :
    main.countResult.name ≠ main.requestLatency.name ∧
    ((main.instrumented id).Uppercase "" World.start).2.counters main.requestCount.name
      ["method", "uppercase", "error", "true"] = 1 ∧
    ((main.instrumented id).Count "hello" World.start).2.histograms main.requestLatency.name
      ["method", "count", "error", "false"] = [Sample.Seconds 1000] :=
  ⟨by decide,
    ((instrumenting_effect (main.instrumented id) "" World.start (by decide)).1.1
      main.requestCount.name ["method", "uppercase", "error", "true"]).trans (by decide),
    ((instrumenting_effect (main.instrumented id) "hello" World.start (by decide)).2.2
      ["method", "count", "error", "false"]).trans (by decide)⟩

/-- C7. With the logfmt logger, whose output is the list `records`, and `r`
the outcome and world of the wrapped call: when the wrapped `Uppercase(s)`
returns `(output, err)`, one call of `serviceLoggingMiddleware.Uppercase(s)`
appends to the records the wrapped call left exactly one record, with
`method = uppercase`, `input = s`, `output`, `err` (nil on success) and
`took`, the time elapsed since the call began; when the wrapped `Count(s)`
returns `output`, one call of `Count(s)` appends exactly one record with
`method = count`, `input = s`, `output` and `took`. A wrapped call that
panics gets no record. -/
theorem logging_decorator_record (next : StringService) (s : String) (w : World) :
    (let r := next.Uppercase s (time.Now w).2
     (serviceLoggingMiddleware.Uppercase ⟨NewLogfmtLogger, next⟩ s w).2.records
      = match r.1 with
        | Outcome.ret (output, err) =>
          r.2.records ++ [[
            Any.string "method", Any.string "uppercase",
            Any.string "input", Any.string s,
            Any.string "output", Any.string output,
            Any.string "err", Any.ofError err,
            Any.string "took", Any.Duration (r.2.clock r.2.reads - w.clock w.reads)]]
        | Outcome.panic _ => r.2.records) ∧
    (let r := next.Count s (time.Now w).2
     (serviceLoggingMiddleware.Count ⟨NewLogfmtLogger, next⟩ s w).2.records
      = match r.1 with
        | Outcome.ret output =>
          r.2.records ++ [[
            Any.string "method", Any.string "count",
            Any.string "input", Any.string s,
            Any.string "output", Any.int output,
            Any.string "took", Any.Duration (r.2.clock r.2.reads - w.clock w.reads)]]
        | Outcome.panic _ => r.2.records) := by
  constructor
  · rcases h : next.Uppercase s (time.Now w).2 with ⟨o, w2⟩
    simp only [time.Now] at h
    simp only [serviceLoggingMiddleware.Uppercase, bind, Go.bind, time.Now, time.Since,
      Logger.call, NewLogfmtLogger, pure, Go.pure, h]
    rcases o with ⟨v, e⟩ | p <;> rfl
  · rcases h : next.Count s (time.Now w).2 with ⟨o, w2⟩
    simp only [time.Now] at h
    simp only [serviceLoggingMiddleware.Count, bind, Go.bind, time.Now, time.Since,
      Logger.call, NewLogfmtLogger, pure, Go.pure, h]
    rcases o with v | p <;> rfl

/-! ## The endpoint middleware -/

/-- C8. For every logger, endpoint `next`, context and request, the endpoint
`loggingMiddleware(logger)(next)` logs "calling endpoint", then calls `next`
once with that context and request, then logs "called endpoint" whatever the
outcome of `next` (a nil error, a non-nil error or a panic), and its outcome is
the outcome of `next`. With the logfmt logger, the second log call appends
exactly one record to those `next` left; and around an endpoint that writes
down its calls, the records added are: "calling endpoint", one call with the
same context and request, "called endpoint". -/
theorem endpoint_logging (logger : Logger) (next : Endpoint) (ctx : Context) (request : Any)
    (response : Any) (err : Stringsvc.error) (w : World) :
    loggingMiddleware logger next ctx request w
      = (let w1 := (logger.Log [Any.string "msg", Any.string "calling endpoint"] w).2
         let r := next ctx request w1
         (r.1, (logger.Log [Any.string "msg", Any.string "called endpoint"] r.2).2)) ∧
    (let r := next ctx request
        { w with records := w.records ++ [[Any.string "msg", Any.string "calling endpoint"]] }
     (loggingMiddleware NewLogfmtLogger next ctx request w).2.records
      = r.2.records ++ [[Any.string "msg", Any.string "called endpoint"]]) ∧
    loggingMiddleware NewLogfmtLogger (recordingEndpoint response err) ctx request w
      = (Outcome.ret (response, err),
          { w with records := w.records ++ [
            [Any.string "msg", Any.string "calling endpoint"],
            [Any.string "ctx", Any.int ctx.id, Any.string "request", request],
            [Any.string "msg", Any.string "called endpoint"]] }) := by
  have key : ∀ (lg : Logger) (nx : Endpoint), loggingMiddleware lg nx ctx request w
      = ((nx ctx request (lg.Log [Any.string "msg", Any.string "calling endpoint"] w).2).1,
          (lg.Log [Any.string "msg", Any.string "called endpoint"]
            (nx ctx request (lg.Log [Any.string "msg", Any.string "calling endpoint"] w).2).2).2) := by
    intro lg nx
    rcases h : nx ctx request (lg.Log [Any.string "msg", Any.string "calling endpoint"] w).2
      with ⟨o, w2⟩
    simp only [loggingMiddleware, bind, Go.bind, Go.defer, Logger.call, h]
    cases o <;> rfl
  refine ⟨key logger next, ?_, ?_⟩
  · rw [key]; rfl
  · rw [key]
    simp [recordingEndpoint, NewLogfmtLogger]

/-! ## The wiring of main -/

/-- C9. For every request, and so for every `uppercaseRequest{S: s}`, the
endpoint `uppercase` that `main` wires has the same outcome, response and
error, as `makeUppercaseEndpoint` of the bare `stringService` (which does not
depend on the world): no layer drops a failure, turns it into a non-nil error,
or alters the value. On `s = ""` the response is `{V: "", Err: "empty string"}`
with a nil error. -/
theorem wired_uppercase_same_outcome (unicodeToUpper : Char → Char) (ctx : Context)
    (request : Any) (w w0 : World) :
    (main.uppercase unicodeToUpper ctx request w).1
      = (makeUppercaseEndpoint (stringService.toStringService unicodeToUpper {}) ctx request w0).1 ∧
    (main.uppercase unicodeToUpper ctx (Any.uppercaseRequest ⟨""⟩) w).1
      = Outcome.ret (Any.uppercaseResponse { V := "", Err := "empty string" }, none) := by
  refine ⟨?_, rfl⟩
  cases request with
  | uppercaseRequest r =>
    by_cases hs : r.S = ""
    · simp [main.uppercase, main.svc, loggingMiddleware, makeUppercaseEndpoint, bind, Go.bind,
        Go.defer, Logger.call, instrumentingMiddleware.toStringService,
        instrumentingMiddleware.Uppercase, serviceLoggingMiddleware.toStringService,
        serviceLoggingMiddleware.Uppercase, stringService.toStringService,
        stringService.Uppercase, stringService.uppercase, time.Now, time.Since, pure, Go.pure,
        Counter.Add, Histogram.Observe, hs]
    · simp [main.uppercase, main.svc, loggingMiddleware, makeUppercaseEndpoint, bind, Go.bind,
        Go.defer, Logger.call, instrumentingMiddleware.toStringService,
        instrumentingMiddleware.Uppercase, serviceLoggingMiddleware.toStringService,
        serviceLoggingMiddleware.Uppercase, stringService.toStringService,
        stringService.Uppercase, stringService.uppercase, time.Now, time.Since, pure, Go.pure,
        Counter.Add, Histogram.Observe, hs]
  | _ => rfl

end Stringsvc
